import Mathlib

/-!
Verification of the encryption and credential-lifecycle layer of the
perfind personal-finance application.

The JavaScript sources are shallowly embedded: JS strings become `List Char`,
byte buffers become `List Nat` (each entry < 256 where it matters), fallible
operations return `Except`, and the persistence / clock / randomness effects
are made explicit arguments.  Each definition is translated from the source
file named in its doc comment.
-/

namespace Perfind

/-- JS strings are modelled as lists of characters. -/
abbrev Str := List Char

/-- Model of JS `String.prototype.includes` for a single-character needle. -/
def jsIncludes (s : Str) (c : Char) : Bool :=
  s.any (fun x => x == c)

/-- Model of JS `String.prototype.split(delimiter)` for the one-character
delimiter used by `encryption.js` (the colon). -/
def splitOnColon : Str → List Str
  | [] => [[]]
  | c :: rest =>
    if c = ':' then [] :: splitOnColon rest
    else
      match splitOnColon rest with
      | [] => [[c]]
      | p :: ps => (c :: p) :: ps

/-- Hex character for a value below 16, as produced by Node's
`Buffer.prototype.toString('hex')` (lowercase). -/
def hexDigitOfNat (n : Nat) : Char :=
  if n < 10 then Char.ofNat (48 + n) else Char.ofNat (87 + n)

/-- Numeric value of a hex character (0 for characters outside `[0-9a-fA-F]`,
mirroring the lenient byte parsing the claims never exercise). -/
def hexDigitToNat (c : Char) : Nat :=
  if 48 ≤ c.toNat ∧ c.toNat ≤ 57 then c.toNat - 48
  else if 97 ≤ c.toNat ∧ c.toNat ≤ 102 then c.toNat - 87
  else if 65 ≤ c.toNat ∧ c.toNat ≤ 70 then c.toNat - 55
  else 0

/-- Two hex characters for one byte. -/
def hexOfByte (b : Nat) : Str :=
  [hexDigitOfNat (b / 16 % 16), hexDigitOfNat (b % 16)]

/-- Model of `Buffer.prototype.toString('hex')`: bytes to lowercase hex. -/
def hexEncode (bs : List Nat) : Str :=
  (bs.map hexOfByte).flatten

/-- Model of `Buffer.from(s, 'hex')`: hex characters back to bytes, two
characters per byte, ignoring a trailing odd character. -/
def hexDecode : Str → List Nat
  | a :: b :: rest => (hexDigitToNat a * 16 + hexDigitToNat b) :: hexDecode rest
  | _ => []

/-- Abstract model of the `aes-256-cbc` transformation used by
`src/backend/config/encryption.js` (the UTF-8 step, the block cipher and the
PKCS#7 padding are bundled into one key-and-IV-indexed invertible map from
character data to ciphertext bytes).  `dec` returns `none` on data that is not
a valid ciphertext, modelling a thrown padding/format error. -/
structure Cipher where
  enc : List Nat → List Nat → Str → List Nat
  dec : List Nat → List Nat → List Nat → Option Str
  enc_byte_lt : ∀ key iv m b, b ∈ enc key iv m → b < 256
  dec_enc : ∀ key iv m, dec key iv (enc key iv m) = some m

/-- Typed failures of the crypto core of `encryption.js`.  `missingKey` and
`badKeyLength` model the two configuration errors thrown by
`getEncryptionKey`; `encryptFailed` and `decryptFailed` model the generic
errors rethrown by the `catch` blocks of `encrypt` and `decrypt`. -/
inductive CryptoError
  | missingKey
  | badKeyLength
  | encryptFailed
  | decryptFailed
deriving DecidableEq

/-- Model of `getEncryptionKey` (`encryption.js` lines 10-22): reads
`process.env.ENCRYPTION_KEY`, requires a non-empty value of exactly 64 hex
characters, and returns its bytes. -/
def getEncryptionKey (envKey : Option Str) : Except CryptoError (List Nat) :=
  match envKey with
  | none => .error .missingKey
  | some k =>
    if k.isEmpty then .error .missingKey
    else if k.length = 64 then .ok (hexDecode k)
    else .error .badKeyLength

/-- Model of `encrypt` (`encryption.js` lines 25-44): empty input is returned
as-is; otherwise a fresh 16-byte IV (made an explicit argument here) and the
configured key drive the cipher, and the result is
`hex(iv) ++ ":" ++ hex(cipherBytes)`.  Any error inside the `try` block is
rethrown as the generic encryption failure. -/
def encrypt (C : Cipher) (envKey : Option Str) (iv : List Nat) (text : Str) :
    Except CryptoError Str :=
  if text.isEmpty then .ok text
  else
    match getEncryptionKey envKey with
    | .error _ => .error .encryptFailed
    | .ok key =>
      if iv.length = 16 then
        .ok (hexEncode iv ++ ':' :: hexEncode (C.enc key iv text))
      else .error .encryptFailed

/-- Model of `decrypt` (`encryption.js` lines 47-78): empty input and input
without the colon delimiter are returned unchanged (plaintext passthrough);
otherwise the string must split into exactly two parts, the first is the hex
IV (which must decode to 16 bytes for `createDecipheriv`), and the second is
the hex ciphertext.  Any error inside the `try` block becomes the generic
decryption failure. -/
def decrypt (C : Cipher) (envKey : Option Str) (s : Str) :
    Except CryptoError Str :=
  if s.isEmpty then .ok s
  else if jsIncludes s ':' = false then .ok s
  else
    match getEncryptionKey envKey with
    | .error _ => .error .decryptFailed
    | .ok key =>
      match splitOnColon s with
      | [ivHex, ctHex] =>
        let iv := hexDecode ivHex
        if iv.length = 16 then
          match C.dec key iv (hexDecode ctHex) with
          | some m => .ok m
          | none => .error .decryptFailed
        else .error .decryptFailed
      | _ => .error .decryptFailed

/-- Finite decimal model of the JS numbers handled by `encryptAmount`:
a sign, an integer part, and a list of fraction digits (each below 10).
`Number.prototype.toString` renders such a value in plain positional
notation, which is what `amount.toString()` produces for amounts in the
non-exponential range. -/
structure DecNum where
  neg : Bool
  ip : Nat
  fp : List Nat
deriving DecidableEq

/-- Digit-list accumulator: most-significant-first digits to a natural. -/
def digitsToNat (ds : List Nat) : Nat :=
  ds.foldl (fun a d => a * 10 + d) 0

/-- Rational value denoted by a `DecNum`. -/
def DecNum.val (n : DecNum) : ℚ :=
  (if n.neg then (-1 : ℚ) else 1) *
    ((n.ip : ℚ) + (digitsToNat n.fp : ℚ) / (10 : ℚ) ^ n.fp.length)

/-- Well-formedness of the digit list of a `DecNum`. -/
def DecNum.WF (n : DecNum) : Prop :=
  ∀ d ∈ n.fp, d < 10

instance (n : DecNum) : Decidable n.WF := by
  unfold DecNum.WF
  infer_instance

/-- Decimal character of a digit. -/
def digitChar (d : Nat) : Char :=
  Char.ofNat (48 + d)

/-- Numeric value of a decimal character. -/
def charDigitVal (c : Char) : Nat :=
  c.toNat - 48

/-- Decimal rendering of a natural number, as `Number.prototype.toString`
renders the integer part (zero renders as the single character 0). -/
def natToChars (m : Nat) : Str :=
  if m = 0 then [digitChar 0]
  else (Nat.digits 10 m).reverse.map digitChar

/-- Model of `Number.prototype.toString` on the finite decimals of `DecNum`:
optional minus sign, integer part, and a dot followed by the fraction digits
when there are any. -/
def numToString (n : DecNum) : Str :=
  (if n.neg then [Char.ofNat 45] else []) ++ natToChars n.ip ++
    (if n.fp.isEmpty then [] else '.' :: n.fp.map digitChar)

/-- Sign factor read by `parseFloat` from the first non-whitespace
character (code 45 is the minus sign). -/
def jsSignOf : Str → ℚ
  | c :: _ => if c = Char.ofNat 45 then -1 else 1
  | [] => 1

/-- Drop one leading sign character (codes 45 and 43), as `parseFloat`
does before reading digits. -/
def jsStripSign : Str → Str
  | [] => []
  | c :: r => if c = Char.ofNat 45 ∨ c = Char.ofNat 43 then r else c :: r

/-- Unsigned decimal body read by `parseFloat`: a digit run, then
optionally a dot and a second digit run; `none` models `NaN` (no digit
found at all). -/
def jsParseBody (u : Str) : Option ℚ :=
  let ds := u.takeWhile Char.isDigit
  match u.dropWhile Char.isDigit with
  | '.' :: r2 =>
    let fs := r2.takeWhile Char.isDigit
    if ds.isEmpty ∧ fs.isEmpty then none
    else
      some ((digitsToNat (ds.map charDigitVal) : ℚ) +
        (digitsToNat (fs.map charDigitVal) : ℚ) / (10 : ℚ) ^ fs.length)
  | _ =>
    if ds.isEmpty then none
    else some ((digitsToNat (ds.map charDigitVal) : ℚ))

/-- Model of the decimal fragment of JS `parseFloat`: skip leading
whitespace, read an optional sign, then the unsigned decimal body.  The
exponent suffix of full `parseFloat` is not modelled; the strings produced
by `numToString` never contain one. -/
def jsParseFloat (s : Str) : Option ℚ :=
  let t := s.dropWhile Char.isWhitespace
  (jsParseBody (jsStripSign t)).map (fun q => jsSignOf t * q)

/-- Model of `parseFloat(x) || 0` (`encryption.js` line 95): `NaN` (and a
parsed zero, which is falsy) collapse to 0. -/
def jsParseFloatOrZero (s : Str) : ℚ :=
  match jsParseFloat s with
  | none => 0
  | some q => q

/-- JS values flowing through the amount codec: a number or a string. -/
inductive JsVal
  | num (n : DecNum)
  | str (s : Str)
deriving DecidableEq

/-- Model of `encryptAmount` (`encryption.js` lines 81-86): non-numbers are
returned as-is, numbers are rendered with `toString` and encrypted. -/
def encryptAmount (C : Cipher) (envKey : Option Str) (iv : List Nat)
    (v : JsVal) : Except CryptoError JsVal :=
  match v with
  | .str s => .ok (.str s)
  | .num n => (encrypt C envKey iv (numToString n)).map .str

/-- Model of `decryptAmount` (`encryption.js` lines 89-96): numbers are
returned as their own value, strings are decrypted and parsed with
`parseFloat(..) || 0`.  The result is reported as the rational value of the
produced JS number. -/
def decryptAmount (C : Cipher) (envKey : Option Str) (v : JsVal) :
    Except CryptoError ℚ :=
  match v with
  | .num n => .ok n.val
  | .str s => (decrypt C envKey s).map jsParseFloatOrZero

/-- Refresh-token subdocument of `userSchema` (`User.js` lines 43-60).
Timestamps are milliseconds since the epoch. -/
structure RefreshTokenRecord where
  token : Str
  createdAt : Nat
  expiresAt : Nat
  isRevoked : Bool
deriving DecidableEq

/-- The predicate `token.expiresAt > new Date() && !token.isRevoked` used by
the filter in `addRefreshToken` and by `validateRefreshToken`. -/
def isActiveRecord (now : Nat) (r : RefreshTokenRecord) : Bool :=
  decide (now < r.expiresAt) && !r.isRevoked

/-- The per-user mutable state touched by the credential store (`User.js`):
the bcrypt password hash, the refresh-token list, and the legacy single
refresh-token field. -/
structure UserState where
  password : Str
  refreshTokens : List RefreshTokenRecord
  legacyRefreshToken : Option Str
deriving DecidableEq

/-- Default `expiresIn` of `addRefreshToken`: 7 days in milliseconds. -/
def defaultRefreshTtl : Nat := 7 * 24 * 60 * 60 * 1000

/-- Model of `userSchema.methods.addRefreshToken` (`User.js` lines 185-206):
drop expired and revoked entries, `shift()` the oldest entry when 5 or more
remain, then push the new record and update the legacy field. -/
def addRefreshToken (now : Nat) (tok : Str) (expiresIn : Nat) (u : UserState) :
    UserState :=
  let pruned := u.refreshTokens.filter (isActiveRecord now)
  let trimmed := if 5 ≤ pruned.length then pruned.tail else pruned
  { u with
    refreshTokens := trimmed ++
      [{ token := tok, createdAt := now, expiresAt := now + expiresIn,
         isRevoked := false }],
    legacyRefreshToken := some tok }

/-- Model of `userSchema.methods.validateRefreshToken` (`User.js` lines
209-216): true iff some stored record matches the token and is active. -/
def validateRefreshToken (now : Nat) (tok : Str) (u : UserState) : Bool :=
  u.refreshTokens.any (fun r => r.token == tok && isActiveRecord now r)

/-- JS `Array.prototype.find` followed by a mutation of the found record:
mark the first record with the given token as revoked. -/
def revokeFirst (tok : Str) : List RefreshTokenRecord → List RefreshTokenRecord
  | [] => []
  | r :: rs =>
    if r.token == tok then { r with isRevoked := true } :: rs
    else r :: revokeFirst tok rs

/-- Model of `userSchema.methods.revokeRefreshToken` (`User.js` lines
219-231). -/
def revokeRefreshToken (tok : Str) (u : UserState) : UserState :=
  { u with
    refreshTokens := revokeFirst tok u.refreshTokens,
    legacyRefreshToken :=
      if u.legacyRefreshToken == some tok then none else u.legacyRefreshToken }

/-- Model of `userSchema.methods.revokeAllRefreshTokens` (`User.js` lines
234-240). -/
def revokeAllRefreshTokens (u : UserState) : UserState :=
  { u with
    refreshTokens := u.refreshTokens.map (fun r => { r with isRevoked := true }),
    legacyRefreshToken := none }

/-- Decoded JWT payload as produced by `generateTokens` in `passport.js`:
the user id and the `type` marker. -/
structure JwtPayload where
  id : Nat
  type : Str
deriving DecidableEq

/-- External oracles of the auth controller: `jwt.verify` with the refresh
secret (`null` on failure), `bcrypt.compare`, the bcrypt hash applied by the
pre-save hook, and the id of the single modelled user (the `findById` /
`findByEmail` target). -/
structure AuthEnv where
  verify : Str → Option JwtPayload
  compare : Str → Str → Bool
  hash : Str → Str
  uid : Nat

/-- HTTP responses of the modelled auth controller endpoints. -/
inductive AuthResponse
  | tokenPair (accessTok refreshTok : Str)
  | okMessage (message : Str)
  | authError (message : Str)
  | badRequest (message : Str)
  | serverError
deriving DecidableEq

/-- Message of the 401 response for a missing refresh cookie. -/
def msgRefreshNotProvided : Str := "Refresh token not provided".toList

/-- Message of the 401 response for a token failing JWT verification. -/
def msgInvalidRefresh : Str := "Invalid refresh token".toList

/-- Message of the 401 response when the decoded user id is unknown. -/
def msgUserNotFound : Str := "User not found".toList

/-- Message of the 401 response when the stored-token validation fails. -/
def msgInvalidOrExpired : Str := "Invalid or expired refresh token".toList

/-- Message thrown by `changePassword` on a wrong current password. -/
def msgCurrentIncorrect : Str := "Current password is incorrect".toList

/-- Message thrown by `changePassword` when the new password is unchanged. -/
def msgMustDiffer : Str :=
  "New password must be different from current password".toList

/-- Message of the 200 response of the change-password endpoint. -/
def msgPasswordChanged : Str := "Password changed successfully".toList

/-- Message of the 401 response of the login endpoint. -/
def msgInvalidEmailOrPassword : Str := "Invalid email or password".toList

/-- Message of the 200 response of the logout endpoint. -/
def msgLoggedOut : Str := "Logged out successfully".toList

/-- The `type` marker carried by refresh tokens. -/
def typeRefresh : Str := "refresh".toList

/-- Model of the `refreshToken` controller (`authController.js` lines
330-383): read the cookie, verify the JWT and its `type`, look up the user,
validate the stored token, then revoke it and add a freshly generated pair.
The fresh access and refresh tokens produced by `generateTokens` are explicit
arguments. -/
def refreshTokenOp (env : AuthEnv) (now : Nat) (freshAccess freshRefresh : Str)
    (cookie : Option Str) (u : UserState) : AuthResponse × UserState :=
  match cookie with
  | none => (.authError msgRefreshNotProvided, u)
  | some t =>
    match env.verify t with
    | none => (.authError msgInvalidRefresh, u)
    | some p =>
      if p.type ≠ typeRefresh then (.authError msgInvalidRefresh, u)
      else if p.id ≠ env.uid then (.authError msgUserNotFound, u)
      else if validateRefreshToken now t u = false then
        (.authError msgInvalidOrExpired, u)
      else
        let u1 := revokeRefreshToken t u
        let u2 := addRefreshToken now freshRefresh defaultRefreshTtl u1
        (.tokenPair freshAccess freshRefresh, u2)

/-- Model of the `changePassword` controller (`authController.js` lines
231-267) composed with `userSchema.methods.changePassword` (`User.js` lines
118-134): a wrong current password or an unchanged new password throw and
are mapped to 400 responses with the thrown message; otherwise the hash is
replaced, every refresh token is revoked, and the cookie token is re-added
when it passes JWT verification. -/
def changePasswordOp (env : AuthEnv) (now : Nat)
    (currentPassword newPassword : Str) (cookie : Option Str) (u : UserState) :
    AuthResponse × UserState :=
  if env.compare currentPassword u.password = false then
    (.badRequest msgCurrentIncorrect, u)
  else if env.compare newPassword u.password = true then
    (.badRequest msgMustDiffer, u)
  else
    let u1 := { u with password := env.hash newPassword }
    let u2 := revokeAllRefreshTokens u1
    let u3 :=
      match cookie with
      | some t =>
        if (env.verify t).isSome then addRefreshToken now t defaultRefreshTtl u2
        else u2
      | none => u2
    (.okMessage msgPasswordChanged, u3)

/-- Model of the `login` controller (`authController.js` lines 91-128)
restricted to the modelled user: on a matching password a fresh pair is
generated and the refresh token stored. -/
def loginOp (env : AuthEnv) (now : Nat) (freshAccess freshRefresh : Str)
    (password : Str) (u : UserState) : AuthResponse × UserState :=
  if env.compare password u.password then
    (.tokenPair freshAccess freshRefresh,
      addRefreshToken now freshRefresh defaultRefreshTtl u)
  else (.authError msgInvalidEmailOrPassword, u)

/-- Model of the `logout` controller (`authController.js` lines 388-411):
revoke the cookie token, or every token when no cookie is present. -/
def logoutOp (cookie : Option Str) (u : UserState) : AuthResponse × UserState :=
  match cookie with
  | some t => (.okMessage msgLoggedOut, revokeRefreshToken t u)
  | none => (.okMessage msgLoggedOut, revokeAllRefreshTokens u)

/-- The operations that may touch a user's refresh-token list, each tagged
with the clock value at which it runs. -/
inductive AuthOp
  | refresh (now : Nat) (freshAccess freshRefresh : Str) (cookie : Option Str)
  | changePwd (now : Nat) (currentPassword newPassword : Str)
      (cookie : Option Str)
  | login (now : Nat) (password : Str) (freshAccess freshRefresh : Str)
  | logout (now : Nat) (cookie : Option Str)
  | addTok (now : Nat) (tok : Str) (ttl : Nat)
deriving DecidableEq

/-- Clock value of an operation. -/
def AuthOp.time : AuthOp → Nat
  | .refresh now _ _ _ => now
  | .changePwd now _ _ _ => now
  | .login now _ _ _ => now
  | .logout now _ => now
  | .addTok now _ _ => now

/-- State transition of one operation (the response is discarded). -/
def applyOp (env : AuthEnv) (op : AuthOp) (u : UserState) : UserState :=
  match op with
  | .refresh now a f cookie => (refreshTokenOp env now a f cookie u).2
  | .changePwd now c n cookie => (changePasswordOp env now c n cookie u).2
  | .login now pw a f => (loginOp env now a f pw u).2
  | .logout _ cookie => (logoutOp cookie u).2
  | .addTok now tok ttl => addRefreshToken now tok ttl u

/-- State after a sequence of operations. -/
def applyOps (env : AuthEnv) (ops : List AuthOp) (u : UserState) : UserState :=
  ops.foldl (fun s op => applyOp env op s) u

/-- A token value is terminal at a given time: every stored record carrying
it is revoked or expired. -/
def deadFor (t : Str) (now : Nat) (u : UserState) : Prop :=
  ∀ r ∈ u.refreshTokens, r.token = t → (r.isRevoked = true ∨ r.expiresAt ≤ now)

instance (t : Str) (now : Nat) (u : UserState) : Decidable (deadFor t now u) := by
  unfold deadFor
  infer_instance

/-- An operation never hands the given token value to `addRefreshToken`:
its freshly generated refresh token differs from it, and for the
change-password operation the re-added cookie differs from it. -/
def opAvoids (t : Str) : AuthOp → Prop
  | .refresh _ _ f _ => f ≠ t
  | .changePwd _ _ _ cookie => cookie ≠ some t
  | .login _ _ _ f => f ≠ t
  | .logout _ _ => True
  | .addTok _ tok _ => tok ≠ t

instance (t : Str) (op : AuthOp) : Decidable (opAvoids t op) := by
  cases op <;> unfold opAvoids <;> infer_instance

/-- The operation clocks are nondecreasing, starting from a base time. -/
def timesMono : Nat → List AuthOp → Prop
  | _, [] => True
  | n, op :: rest => n ≤ op.time ∧ timesMono op.time rest

/-- Decidability of `timesMono`. -/
def timesMonoDec : (n : Nat) → (ops : List AuthOp) → Decidable (timesMono n ops)
  | _, [] => .isTrue trivial
  | n, op :: rest => by
    unfold timesMono
    exact @instDecidableAnd _ _ (Nat.decLe n op.time) (timesMonoDec op.time rest)

instance (n : Nat) (ops : List AuthOp) : Decidable (timesMono n ops) :=
  timesMonoDec n ops

/-- Clock value after the last operation (the base time when there is
none). -/
def lastTime (n : Nat) (ops : List AuthOp) : Nat :=
  ops.foldl (fun _ op => op.time) n

/-- Model of JS `String.prototype.toLowerCase` on the ASCII range. -/
def jsToLower (s : Str) : Str :=
  s.map Char.toLower

/-- A persisted user row as `findByEmail` sees it: the id and the stored
(encrypted or legacy plaintext) email column. -/
structure StoredUser where
  userId : Nat
  emailStored : Str
deriving DecidableEq

/-- Model of `userSchema.statics.findByEmail` (`User.js` lines 256-268):
load every user, decrypt each stored email through the mongoose getter, and
return the first user whose decrypted email is strictly equal to the
lowercased argument; `none` when no user matches.  A getter failure
propagates. -/
def findByEmail (C : Cipher) (envKey : Option Str) (users : List StoredUser)
    (email : Str) : Except CryptoError (Option StoredUser) :=
  match users with
  | [] => .ok none
  | u :: rest =>
    match decrypt C envKey u.emailStored with
    | .error e => .error e
    | .ok plain =>
      if plain == jsToLower email then .ok (some u)
      else findByEmail C envKey rest email

/-- Decrypted email of a stored user (empty on a decryption failure); used
to state which user `findByEmail` returns. -/
def emailPlain (C : Cipher) (envKey : Option Str) (u : StoredUser) : Str :=
  match decrypt C envKey u.emailStored with
  | .ok p => p
  | .error _ => []

/-- HTTP methods distinguished by the CSRF middleware. -/
inductive HttpMethod
  | GET
  | HEAD
  | OPTIONS
  | POST
  | PUT
  | DELETE
  | PATCH
deriving DecidableEq

/-- The check `['GET', 'HEAD', 'OPTIONS'].includes(req.method)` of
`csrfProtection`. -/
def isSafeMethod (m : HttpMethod) : Bool :=
  match m with
  | .GET => true
  | .HEAD => true
  | .OPTIONS => true
  | _ => false

/-- The parts of an Express request read by `csrfProtection`: the method,
the `x-csrf-token` header, the `_csrf` body field, and the session's CSRF
secret. -/
structure CsrfRequest where
  method : HttpMethod
  headerToken : Option Str
  bodyToken : Option Str
  sessionSecret : Option Str
deriving DecidableEq

/-- Outcome of the CSRF middleware: pass the request on, or answer 403 with
a message. -/
inductive CsrfOutcome
  | next
  | forbidden (message : Str)
deriving DecidableEq

/-- Message of the 403 response for an absent token. -/
def msgCsrfMissing : Str := "CSRF token missing".toList

/-- Message of the 403 response for a token failing verification. -/
def msgCsrfInvalid : Str := "Invalid CSRF token".toList

/-- JS truthiness of a possibly-absent string: `undefined` and the empty
string are falsy. -/
def jsTruthyStr : Option Str → Bool
  | none => false
  | some s => !s.isEmpty

/-- JS `a || b` on possibly-absent strings. -/
def jsOrStr (a b : Option Str) : Option Str :=
  if jsTruthyStr a then a else b

/-- The session secret in effect after the lazy initialisation
`if (!req.session.csrfSecret) req.session.csrfSecret = generateSecret()`;
the freshly generated secret is an explicit argument. -/
def sessionSecretAfter (freshSecret : Str) (req : CsrfRequest) : Str :=
  if jsTruthyStr req.sessionSecret then req.sessionSecret.getD []
  else freshSecret

/-- Model of `csrfProtection` (`csrfMiddleware.js` lines 23-52): safe
methods skip the check entirely; otherwise the secret is lazily created, the
token is read from the header or the body, a missing token answers 403, a
token failing `tokens.verify` answers 403, and a verified token passes
through.  The second component is the session secret after the call. -/
def csrfProtection (verifyTok : Str → Str → Bool) (freshSecret : Str)
    (req : CsrfRequest) : CsrfOutcome × Option Str :=
  if isSafeMethod req.method then (.next, req.sessionSecret)
  else
    let secret := sessionSecretAfter freshSecret req
    let tok := jsOrStr req.headerToken req.bodyToken
    if jsTruthyStr tok = false then (.forbidden msgCsrfMissing, some secret)
    else if verifyTok secret (tok.getD []) then (.next, some secret)
    else (.forbidden msgCsrfInvalid, some secret)

/-- The `userId` value handed to `auditLog`: a JS string or `null`. -/
inductive JsActor
  | strVal (s : Str)
  | nullVal
deriving DecidableEq

/-- Actor computed by `auditMiddleware` (`auditMiddleware.js` line 77):
the authenticated user's id string, or the string `anonymous`. -/
def auditActorOfUser (reqUserId : Option Str) : JsActor :=
  match reqUserId with
  | some i => .strVal i
  | none => .strVal ("anonymous".toList)

/-- Actor computed by `auditAuth` (`auditMiddleware.js` line 114): the
authenticated user's id string, or `null`. -/
def authAuditActorOfUser (reqUserId : Option Str) : JsActor :=
  match reqUserId with
  | some i => .strVal i
  | none => .nullVal

/-- Hex-character test used by the ObjectId cast model. -/
def isHexChar (c : Char) : Bool :=
  (48 ≤ c.toNat && c.toNat ≤ 57) || (97 ≤ c.toNat && c.toNat ≤ 102) ||
    (65 ≤ c.toNat && c.toNat ≤ 70)

/-- Model of the mongoose ObjectId cast on the `userId` path of
`auditLogSchema`: a 24-character hex string or a 12-character string casts;
`null` fails the `required` validator; anything else raises a cast error. -/
def castsToObjectId : JsActor → Bool
  | .strVal s => (s.length == 24 && s.all isHexChar) || s.length == 12
  | .nullVal => false

/-- The closed `enum` of the `action` path of `auditLogSchema`
(`AuditLog.js`). -/
def auditActionEnum : List Str :=
  ["LOGIN_SUCCESS".toList, "LOGIN_FAILED".toList, "LOGOUT".toList,
   "PASSWORD_CHANGE".toList, "PASSWORD_RESET_REQUEST".toList,
   "PASSWORD_RESET_SUCCESS".toList, "ACCOUNT_LOCKED".toList,
   "TOKEN_REFRESH".toList, "TRANSACTION_CREATE".toList,
   "TRANSACTION_UPDATE".toList, "TRANSACTION_DELETE".toList,
   "TRANSACTION_VIEW".toList, "BUDGET_CREATE".toList, "BUDGET_UPDATE".toList,
   "BUDGET_DELETE".toList, "BUDGET_VIEW".toList, "GOAL_CREATE".toList,
   "GOAL_UPDATE".toList, "GOAL_DELETE".toList, "GOAL_COMPLETE".toList,
   "GOAL_VIEW".toList, "PROFILE_UPDATE".toList, "PROFILE_VIEW".toList,
   "SUSPICIOUS_ACTIVITY".toList, "RATE_LIMIT_EXCEEDED".toList,
   "UNAUTHORIZED_ACCESS".toList, "DATA_EXPORT".toList,
   "SETTINGS_CHANGE".toList]

/-- The HIGH severity action list of `getSeverity`
(`auditMiddleware.js` lines 16-19). -/
def highSeverityActions : List Str :=
  ["LOGIN_FAILED".toList, "ACCOUNT_LOCKED".toList,
   "UNAUTHORIZED_ACCESS".toList, "SUSPICIOUS_ACTIVITY".toList,
   "RATE_LIMIT_EXCEEDED".toList]

/-- The MEDIUM severity action list of `getSeverity`
(`auditMiddleware.js` lines 20-23). -/
def mediumSeverityActions : List Str :=
  ["PASSWORD_CHANGE".toList, "PASSWORD_RESET_REQUEST".toList,
   "TRANSACTION_DELETE".toList, "BUDGET_DELETE".toList,
   "GOAL_DELETE".toList, "SETTINGS_CHANGE".toList]

/-- Model of `getSeverity` (`auditMiddleware.js` lines 15-28). -/
def getSeverity (action : Str) : Str :=
  if highSeverityActions.contains action then "HIGH".toList
  else if mediumSeverityActions.contains action then "MEDIUM".toList
  else "LOW".toList

/-- The options object destructured by `auditLog`
(`auditMiddleware.js` lines 33-42); `success` defaults to `true`. -/
structure AuditOptions where
  resourceId : Option Str := none
  details : Option Str := none
  ipAddress : Option Str := none
  userAgent : Option Str := none
  sessionId : Option Str := none
  success : Bool := true
  errorMessage : Option Str := none
deriving DecidableEq

/-- The event document fields assembled by `auditLog`
(`auditMiddleware.js` lines 44-57). -/
structure AuditEventData where
  userId : JsActor
  action : Str
  resource : Str
  resourceId : Option Str
  details : Option Str
  ipAddress : Str
  userAgent : Str
  sessionId : Option Str
  success : Bool
  errorMessage : Option Str
  severity : Str
deriving DecidableEq

/-- Assembly of the audit data record, with the `|| 'unknown'` defaults and
the derived severity. -/
def mkAuditData (userId : JsActor) (action resource : Str)
    (opts : AuditOptions) : AuditEventData :=
  { userId := userId
    action := action
    resource := resource
    resourceId := opts.resourceId
    details := opts.details
    ipAddress := (jsOrStr opts.ipAddress (some ("unknown".toList))).getD []
    userAgent := (jsOrStr opts.userAgent (some ("unknown".toList))).getD []
    sessionId := opts.sessionId
    success := opts.success
    errorMessage := opts.errorMessage
    severity := getSeverity action }

/-- A persisted audit document. -/
structure AuditDoc where
  data : AuditEventData
deriving DecidableEq

/-- Model of the mongoose validation run by `save()` on an `AuditLog`
document: `userId` must cast to an ObjectId, `action` must be in the enum,
and the required string paths must be non-empty. -/
def validateAuditEvent (e : AuditEventData) : Bool :=
  castsToObjectId e.userId && auditActionEnum.contains e.action &&
    !e.resource.isEmpty && !e.ipAddress.isEmpty && !e.userAgent.isEmpty

/-- Model of `new AuditLog(eventData); save()`: the document persists iff
validation passes. -/
def mongooseSaveAudit (e : AuditEventData) : Except Str AuditDoc :=
  if validateAuditEvent e then .ok { data := e }
  else .error ("ValidationError".toList)

/-- Model of `auditLogSchema.statics.logEvent` (`AuditLog.js` lines
294-303): try to save; on any failure log to the console (not modelled) and
return `undefined` instead of rethrowing. -/
def logEvent (save : AuditEventData → Except Str AuditDoc)
    (e : AuditEventData) : Except Str (Option AuditDoc) :=
  match save e with
  | .ok d => .ok (some d)
  | .error _ => .ok none

/-- Model of `auditLog` (`auditMiddleware.js` lines 31-64): assemble the
event data and call `logEvent`; any failure is caught and logged instead of
propagating. -/
def auditLog (save : AuditEventData → Except Str AuditDoc) (userId : JsActor)
    (action resource : Str) (opts : AuditOptions) : Except Str Unit :=
  match logEvent save (mkAuditData userId action resource opts) with
  | .ok _ => .ok ()
  | .error _ => .ok ()

/-- Three bytes of a character code (big-endian), for the concrete witness
cipher. -/
def charToBytes (c : Char) : List Nat :=
  [c.toNat / 65536, c.toNat / 256 % 256, c.toNat % 256]

/-- Inverse of `charToBytes`, three bytes at a time. -/
def bytesToChars : List Nat → Str
  | a :: b :: c :: rest => Char.ofNat (a * 65536 + b * 256 + c) :: bytesToChars rest
  | _ => []

/-- Number of stored records carrying a given token value. -/
def countToken (t : Str) (u : UserState) : Nat :=
  (u.refreshTokens.filter (fun r => r.token == t)).length

/-- A well-formed 64-hex-character key value, for concrete instances. -/
def keyW : Str :=
  "0123456789abcdef0123456789abcdef0123456789abcdef0123456789abcdef".toList

/-- A concrete 16-byte IV. -/
def ivW : List Nat := List.replicate 16 7

/-- The concrete decimal number -12.75. -/
def numW : DecNum := { neg := true, ip := 12, fp := [7, 5] }

/-- A user with five active refresh tokens. -/
def u5W : UserState :=
  { password := "h".toList
    refreshTokens :=
      [{ token := "tok1".toList, createdAt := 1, expiresAt := 100, isRevoked := false },
       { token := "tok2".toList, createdAt := 2, expiresAt := 100, isRevoked := false },
       { token := "tok3".toList, createdAt := 3, expiresAt := 100, isRevoked := false },
       { token := "tok4".toList, createdAt := 4, expiresAt := 100, isRevoked := false },
       { token := "tok5".toList, createdAt := 5, expiresAt := 100, isRevoked := false }]
    legacyRefreshToken := none }

/-- A concrete auth environment: string-equality password comparison,
identity hashing, and a JWT verifier accepting exactly the token `t` as a
refresh token of user 1. -/
def envW : AuthEnv :=
  { verify := fun s =>
      if s == ("t".toList) then some { id := 1, type := typeRefresh } else none
    compare := fun p hsh => p == hsh
    hash := fun p => p
    uid := 1 }

/-- A user whose stored password hash is the literal `pw` and whose only
refresh token is an active record for `t`. -/
def uTokW : UserState :=
  { password := "pw".toList
    refreshTokens :=
      [{ token := "t".toList, createdAt := 0, expiresAt := 100, isRevoked := false }]
    legacyRefreshToken := some ("t".toList) }

/-- A user whose only record for the token `t` is revoked: `t` is terminal. -/
def uRevokedW : UserState :=
  { password := "pw".toList
    refreshTokens :=
      [{ token := "t".toList, createdAt := 0, expiresAt := 100, isRevoked := true }]
    legacyRefreshToken := none }

/-- A stored user whose email column holds legacy plaintext with an
upper-case letter. -/
def uMixedW : StoredUser := { userId := 1, emailStored := "Alice@x.com".toList }

/-- A concrete correct cipher used to instantiate the witness theorems: each
character is serialised to three big-endian bytes. -/
def trivialCipher : Cipher where
  enc := fun _ _ m => (m.map charToBytes).flatten
  dec := fun _ _ bs => some (bytesToChars bs)
  enc_byte_lt := by
    intro key iv m b hb
    rw [List.mem_flatten] at hb
    obtain ⟨l, hl, hbl⟩ := hb
    rw [List.mem_map] at hl
    obtain ⟨c, _, rfl⟩ := hl
    have hc : c.toNat < 1114112 := by
      have h0 : c.toNat = c.val.toNat := rfl
      rcases c.valid with h | ⟨h1, h2⟩ <;> omega
    simp only [charToBytes, List.mem_cons, List.not_mem_nil, or_false] at hbl
    rcases hbl with rfl | rfl | rfl <;> omega
  dec_enc := by
    intro key iv m
    simp only [Option.some_inj]
    induction m with
    | nil => rfl
    | cons c rest ih =>
      have hc : c.toNat < 1114112 := by
        have h0 : c.toNat = c.val.toNat := rfl
        rcases c.valid with h | ⟨h1, h2⟩ <;> omega
      have hstep : bytesToChars (charToBytes c ++ (rest.map charToBytes).flatten)
          = Char.ofNat (c.toNat / 65536 * 65536 + c.toNat / 256 % 256 * 256 +
              c.toNat % 256) :: bytesToChars ((rest.map charToBytes).flatten) := rfl
      have h1 : c.toNat / 65536 * 65536 + c.toNat / 256 % 256 * 256 + c.toNat % 256
          = c.toNat := by omega
      rw [List.map_cons, List.flatten_cons, hstep, h1, Char.ofNat_toNat, ih]

/-! ### Helper lemmas about hex encoding and splitting -/

theorem hexDigitOfNat_ne_colon : ∀ m, m < 16 → hexDigitOfNat m ≠ ':' := by
  decide

theorem hexDigitToNat_hexDigitOfNat : ∀ m, m < 16 → hexDigitToNat (hexDigitOfNat m) = m := by
  decide

theorem mem_hexEncode_ne_colon (bs : List Nat) : ∀ c ∈ hexEncode bs, c ≠ ':' := by
  intro c hc
  unfold hexEncode at hc
  rw [List.mem_flatten] at hc
  obtain ⟨l, hl, hcl⟩ := hc
  rw [List.mem_map] at hl
  obtain ⟨b, _, rfl⟩ := hl
  simp only [hexOfByte, List.mem_cons, List.not_mem_nil, or_false] at hcl
  rcases hcl with rfl | rfl
  · exact hexDigitOfNat_ne_colon _ (Nat.mod_lt _ (by norm_num))
  · exact hexDigitOfNat_ne_colon _ (Nat.mod_lt _ (by norm_num))

theorem hexDecode_hexEncode (bs : List Nat) (h : ∀ b ∈ bs, b < 256) :
    hexDecode (hexEncode bs) = bs := by
  induction bs with
  | nil => rfl
  | cons b rest ih =>
    have hb : b < 256 := h b (List.mem_cons_self b rest)
    have hrest := ih (fun x hx => h x (List.mem_cons_of_mem b hx))
    simp only [hexEncode, List.map_cons, List.flatten_cons, hexOfByte,
      List.cons_append, List.nil_append] at *
    rw [hexDecode, hrest]
    have h1 : b / 16 % 16 < 16 := Nat.mod_lt _ (by norm_num)
    have h2 : b % 16 < 16 := Nat.mod_lt _ (by norm_num)
    rw [hexDigitToNat_hexDigitOfNat _ h1, hexDigitToNat_hexDigitOfNat _ h2]
    congr 1
    omega

theorem splitOnColon_of_no_colon (s : Str) (h : ∀ c ∈ s, c ≠ ':') :
    splitOnColon s = [s] := by
  induction s with
  | nil => rfl
  | cons c rest ih =>
    have hc : c ≠ ':' := h c (List.mem_cons_self c rest)
    rw [splitOnColon, if_neg hc, ih (fun x hx => h x (List.mem_cons_of_mem c hx))]

theorem splitOnColon_append (a b : Str) (h : ∀ c ∈ a, c ≠ ':') :
    splitOnColon (a ++ ':' :: b) = a :: splitOnColon b := by
  induction a with
  | nil => simp [splitOnColon]
  | cons c a2 ih =>
    have hc : c ≠ ':' := h c (List.mem_cons_self c a2)
    rw [List.cons_append, splitOnColon, if_neg hc,
      ih (fun x hx => h x (List.mem_cons_of_mem c hx))]

theorem jsIncludes_append_colon (a b : Str) :
    jsIncludes (a ++ ':' :: b) ':' = true := by
  unfold jsIncludes
  rw [List.any_eq_true]
  exact ⟨':', List.mem_append_right a (List.mem_cons_self ':' b), by simp⟩

/-- Core round-trip fact: with a configured 64-hex-character key and a
16-byte IV, `decrypt` inverts `encrypt`. -/
theorem decrypt_encrypt_core (C : Cipher) (k : Str) (iv : List Nat) (s : Str)
    (hk : k.length = 64) (hiv : iv.length = 16) (hivb : ∀ b ∈ iv, b < 256) :
    ∃ ct, encrypt C (some k) iv s = .ok ct ∧ decrypt C (some k) ct = .ok s := by
  have hkne : k.isEmpty = false := by
    cases k with
    | nil => simp at hk
    | cons c r => rfl
  have hkey : getEncryptionKey (some k) = .ok (hexDecode k) := by
    simp [getEncryptionKey, hkne, hk]
  by_cases hs : s.isEmpty
  · refine ⟨s, ?_, ?_⟩
    · unfold encrypt; rw [if_pos hs]
    · unfold decrypt; rw [if_pos hs]
  · refine ⟨hexEncode iv ++ ':' :: hexEncode (C.enc (hexDecode k) iv s), ?_, ?_⟩
    · unfold encrypt
      rw [if_neg hs, hkey]
      simp [hiv]
    · unfold decrypt
      have hne : (hexEncode iv ++ ':' :: hexEncode (C.enc (hexDecode k) iv s)).isEmpty
          = false := by
        simp [List.isEmpty_iff]
      rw [hne, jsIncludes_append_colon, hkey,
        splitOnColon_append _ _ (mem_hexEncode_ne_colon iv),
        splitOnColon_of_no_colon _ (mem_hexEncode_ne_colon _)]
      simp [hexDecode_hexEncode iv hivb, hiv,
        hexDecode_hexEncode _ (fun b hb => C.enc_byte_lt _ _ _ b hb), C.dec_enc]

/-- C7: for every string without the colon delimiter, `decrypt` returns its
input unchanged and raises no error, for any cipher and any (even absent or
malformed) key configuration. -/
theorem decrypt_passthrough (C : Cipher) (envKey : Option Str) (s : Str)
    (h : jsIncludes s ':' = false) : decrypt C envKey s = .ok s := by
  unfold decrypt
  by_cases hs : s.isEmpty
  · rw [if_pos hs]
  · rw [if_neg hs, h]
    simp

/-- Witness for `decrypt_passthrough` at a concrete plaintext input. -/
theorem decrypt_passthrough_witness :
    jsIncludes ("john@doe.com".toList) ':' = false ∧
      decrypt trivialCipher none ("john@doe.com".toList)
        = .ok ("john@doe.com".toList) :=
  ⟨by decide, decrypt_passthrough trivialCipher none ("john@doe.com".toList) (by decide)⟩

/-! ### Helper lemmas about decimal rendering and parsing -/

theorem digitChar_facts : ∀ d, d < 10 →
    (digitChar d).isDigit = true ∧ charDigitVal (digitChar d) = d ∧
      (digitChar d).isWhitespace = false ∧ digitChar d ≠ Char.ofNat 45 ∧
      digitChar d ≠ Char.ofNat 43 := by
  decide

theorem foldl_digits_reverse (L : List ℕ) (a : ℕ) :
    L.reverse.foldl (fun x d => x * 10 + d) a
      = a * 10 ^ L.length + Nat.ofDigits 10 L := by
  induction L generalizing a with
  | nil => simp
  | cons d L ih =>
    rw [List.reverse_cons, List.foldl_append, ih]
    simp only [List.foldl_cons, List.foldl_nil, Nat.ofDigits_cons, List.length_cons]
    ring

theorem natToChars_spec (m : ℕ) :
    ∃ L, natToChars m = L.map digitChar ∧ (∀ d ∈ L, d < 10) ∧ L ≠ [] ∧
      digitsToNat L = m := by
  by_cases hm : m = 0
  · subst hm
    exact ⟨[0], rfl, by decide, by decide, rfl⟩
  · refine ⟨(Nat.digits 10 m).reverse, ?_, ?_, ?_, ?_⟩
    · unfold natToChars
      rw [if_neg hm]
    · intro d hd
      exact Nat.digits_lt_base (by norm_num) (List.mem_reverse.mp hd)
    · rw [Ne, List.reverse_eq_nil_iff]
      exact Nat.digits_ne_nil_iff_ne_zero.mpr hm
    · unfold digitsToNat
      rw [foldl_digits_reverse, Nat.ofDigits_digits]
      omega

theorem map_charDigitVal_digitChar (L : List ℕ) (h : ∀ d ∈ L, d < 10) :
    (L.map digitChar).map charDigitVal = L := by
  induction L with
  | nil => rfl
  | cons d L ih =>
    simp only [List.map_cons, List.cons.injEq]
    exact ⟨(digitChar_facts d (h d (List.mem_cons_self d L))).2.1,
      ih (fun x hx => h x (List.mem_cons_of_mem d hx))⟩

theorem takeWhile_all_eq (p : Char → Bool) (l : Str) (h : ∀ x ∈ l, p x = true) :
    l.takeWhile p = l := by
  induction l with
  | nil => rfl
  | cons c l ih =>
    rw [List.takeWhile_cons, if_pos (h c (List.mem_cons_self c l)),
      ih (fun x hx => h x (List.mem_cons_of_mem c hx))]

theorem dropWhile_all_eq (p : Char → Bool) (l : Str) (h : ∀ x ∈ l, p x = true) :
    l.dropWhile p = [] := by
  induction l with
  | nil => rfl
  | cons c l ih =>
    rw [List.dropWhile_cons, if_pos (h c (List.mem_cons_self c l)),
      ih (fun x hx => h x (List.mem_cons_of_mem c hx))]

theorem takeWhile_append_all (p : Char → Bool) (l r : Str)
    (h : ∀ x ∈ l, p x = true) : (l ++ r).takeWhile p = l ++ r.takeWhile p := by
  induction l with
  | nil => rfl
  | cons c l ih =>
    rw [List.cons_append, List.takeWhile_cons, if_pos (h c (List.mem_cons_self c l)),
      ih (fun x hx => h x (List.mem_cons_of_mem c hx)), List.cons_append]

theorem dropWhile_append_all (p : Char → Bool) (l r : Str)
    (h : ∀ x ∈ l, p x = true) : (l ++ r).dropWhile p = r.dropWhile p := by
  induction l with
  | nil => rfl
  | cons c l ih =>
    rw [List.cons_append, List.dropWhile_cons, if_pos (h c (List.mem_cons_self c l)),
      ih (fun x hx => h x (List.mem_cons_of_mem c hx))]

theorem all_isDigit_map_digitChar (L : List ℕ) (h : ∀ d ∈ L, d < 10) :
    ∀ x ∈ L.map digitChar, Char.isDigit x = true := by
  intro x hx
  rw [List.mem_map] at hx
  obtain ⟨d, hd, rfl⟩ := hx
  exact (digitChar_facts d (h d hd)).1

theorem jsParseBody_int (d0 : ℕ) (L2 : List ℕ) (h : ∀ d ∈ d0 :: L2, d < 10) :
    jsParseBody ((d0 :: L2).map digitChar)
      = some ((digitsToNat (d0 :: L2) : ℚ)) := by
  have hall := all_isDigit_map_digitChar _ h
  have hmv : charDigitVal (digitChar d0) :: List.map (charDigitVal ∘ digitChar) L2
      = d0 :: L2 := by
    simpa using map_charDigitVal_digitChar (d0 :: L2) h
  unfold jsParseBody
  rw [takeWhile_all_eq _ _ hall, dropWhile_all_eq _ _ hall]
  simp
  rw [hmv]

theorem jsParseBody_frac (d0 : ℕ) (L2 fp : List ℕ) (h : ∀ d ∈ d0 :: L2, d < 10)
    (hf : ∀ d ∈ fp, d < 10) :
    jsParseBody ((d0 :: L2).map digitChar ++ '.' :: fp.map digitChar)
      = some ((digitsToNat (d0 :: L2) : ℚ) +
          (digitsToNat fp : ℚ) / (10 : ℚ) ^ fp.length) := by
  have hall := all_isDigit_map_digitChar _ h
  have hfall := all_isDigit_map_digitChar _ hf
  have hmv : charDigitVal (digitChar d0) :: List.map (charDigitVal ∘ digitChar) L2
      = d0 :: L2 := by
    simpa using map_charDigitVal_digitChar (d0 :: L2) h
  unfold jsParseBody
  rw [takeWhile_append_all _ _ _ hall, dropWhile_append_all _ _ _ hall,
    List.takeWhile_cons, List.dropWhile_cons]
  simp only [show Char.isDigit '.' = false from by decide, Bool.false_eq_true,
    if_false, List.append_nil]
  rw [takeWhile_all_eq _ _ hfall]
  simp [map_charDigitVal_digitChar _ hf]
  rw [hmv]

theorem jsParseFloat_numToString (n : DecNum) (h : n.WF) :
    jsParseFloat (numToString n) = some n.val := by
  obtain ⟨L, hL, hLlt, hLne, hLval⟩ := natToChars_spec n.ip
  obtain ⟨d0, L2, rfl⟩ : ∃ d0 L2, L = d0 :: L2 := by
    cases L with
    | nil => exact absurd rfl hLne
    | cons a b => exact ⟨a, b, rfl⟩
  have hd0 : d0 < 10 := hLlt d0 (List.mem_cons_self _ _)
  have hd0ws : (digitChar d0).isWhitespace = false := (digitChar_facts d0 hd0).2.2.1
  have hd0m : digitChar d0 ≠ Char.ofNat 45 := (digitChar_facts d0 hd0).2.2.2.1
  have hd0p : digitChar d0 ≠ Char.ofNat 43 := (digitChar_facts d0 hd0).2.2.2.2
  have hWF : ∀ d ∈ n.fp, d < 10 := h
  have hbody : jsParseBody ((d0 :: L2).map digitChar ++
      (if n.fp.isEmpty then [] else '.' :: n.fp.map digitChar))
      = some ((n.ip : ℚ) + (digitsToNat n.fp : ℚ) / (10 : ℚ) ^ n.fp.length) := by
    cases hfp : n.fp with
    | nil =>
      simp only [List.isEmpty_nil, List.map_nil, if_true, List.length_nil,
        List.append_nil]
      rw [jsParseBody_int d0 L2 hLlt, hLval]
      have hz : digitsToNat ([] : List ℕ) = 0 := rfl
      rw [hz]
      norm_num
    | cons f0 fps =>
      simp only [List.isEmpty_cons, Bool.false_eq_true, if_false]
      rw [jsParseBody_frac d0 L2 (f0 :: fps) hLlt (hfp ▸ hWF), hLval]
  have hns : numToString n = (if n.neg then [Char.ofNat 45] else []) ++
      ((d0 :: L2).map digitChar ++
        (if n.fp.isEmpty then [] else '.' :: n.fp.map digitChar)) := by
    unfold numToString
    rw [hL, List.append_assoc]
  cases hneg : n.neg with
  | false =>
    have hns2 : numToString n = digitChar d0 ::
        (L2.map digitChar ++
          (if n.fp.isEmpty then [] else '.' :: n.fp.map digitChar)) := by
      rw [hns, hneg]
      simp
    have hstrip : jsStripSign (digitChar d0 ::
        (L2.map digitChar ++
          (if n.fp.isEmpty then [] else '.' :: n.fp.map digitChar)))
        = digitChar d0 :: (L2.map digitChar ++
          (if n.fp.isEmpty then [] else '.' :: n.fp.map digitChar)) := by
      have hrfl : jsStripSign (digitChar d0 ::
          (L2.map digitChar ++
            (if n.fp.isEmpty then [] else '.' :: n.fp.map digitChar)))
          = if digitChar d0 = Char.ofNat 45 ∨ digitChar d0 = Char.ofNat 43
            then L2.map digitChar ++
              (if n.fp.isEmpty then [] else '.' :: n.fp.map digitChar)
            else digitChar d0 :: (L2.map digitChar ++
              (if n.fp.isEmpty then [] else '.' :: n.fp.map digitChar)) := rfl
      rw [hrfl, if_neg (by simp [hd0m, hd0p])]
    have hsign : jsSignOf (digitChar d0 ::
        (L2.map digitChar ++
          (if n.fp.isEmpty then [] else '.' :: n.fp.map digitChar))) = 1 := by
      have hrfl : jsSignOf (digitChar d0 ::
          (L2.map digitChar ++
            (if n.fp.isEmpty then [] else '.' :: n.fp.map digitChar)))
          = if digitChar d0 = Char.ofNat 45 then -1 else 1 := rfl
      rw [hrfl, if_neg hd0m]
    have ht : (numToString n).dropWhile Char.isWhitespace
        = digitChar d0 :: (L2.map digitChar ++
          (if n.fp.isEmpty then [] else '.' :: n.fp.map digitChar)) := by
      rw [hns2, List.dropWhile_cons]
      simp [hd0ws]
    have hbody2 : jsParseBody (digitChar d0 :: (L2.map digitChar ++
        (if n.fp.isEmpty then [] else '.' :: n.fp.map digitChar)))
        = some ((n.ip : ℚ) + (digitsToNat n.fp : ℚ) / (10 : ℚ) ^ n.fp.length) := by
      rw [← List.cons_append, ← List.map_cons]
      exact hbody
    simp only [jsParseFloat, ht, hstrip, hsign, hbody2, Option.map_some']
    simp [DecNum.val, hneg]
  | true =>
    have hns2 : numToString n = Char.ofNat 45 ::
        ((d0 :: L2).map digitChar ++
          (if n.fp.isEmpty then [] else '.' :: n.fp.map digitChar)) := by
      rw [hns, hneg]
      simp
    have hstrip : jsStripSign (Char.ofNat 45 ::
        ((d0 :: L2).map digitChar ++
          (if n.fp.isEmpty then [] else '.' :: n.fp.map digitChar)))
        = (d0 :: L2).map digitChar ++
          (if n.fp.isEmpty then [] else '.' :: n.fp.map digitChar) := by
      have hrfl : jsStripSign (Char.ofNat 45 ::
          ((d0 :: L2).map digitChar ++
            (if n.fp.isEmpty then [] else '.' :: n.fp.map digitChar)))
          = if Char.ofNat 45 = Char.ofNat 45 ∨ Char.ofNat 45 = Char.ofNat 43
            then (d0 :: L2).map digitChar ++
              (if n.fp.isEmpty then [] else '.' :: n.fp.map digitChar)
            else Char.ofNat 45 :: ((d0 :: L2).map digitChar ++
              (if n.fp.isEmpty then [] else '.' :: n.fp.map digitChar)) := rfl
      rw [hrfl, if_pos (Or.inl rfl)]
    have hsign : jsSignOf (Char.ofNat 45 ::
        ((d0 :: L2).map digitChar ++
          (if n.fp.isEmpty then [] else '.' :: n.fp.map digitChar))) = -1 := by
      have hrfl : jsSignOf (Char.ofNat 45 ::
          ((d0 :: L2).map digitChar ++
            (if n.fp.isEmpty then [] else '.' :: n.fp.map digitChar)))
          = if Char.ofNat 45 = Char.ofNat 45 then -1 else 1 := rfl
      rw [hrfl, if_pos rfl]
    have ht : (numToString n).dropWhile Char.isWhitespace
        = Char.ofNat 45 :: ((d0 :: L2).map digitChar ++
          (if n.fp.isEmpty then [] else '.' :: n.fp.map digitChar)) := by
      rw [hns2, List.dropWhile_cons]
      simp [show (Char.ofNat 45).isWhitespace = false from by decide]
    simp only [jsParseFloat, ht, hstrip, hsign, hbody, Option.map_some']
    simp [DecNum.val, hneg]

/-! ### Claim C1: encryption round trip -/

/-- C1: under a configured well-formed 32-byte key (64 hex characters) and a
16-byte IV, `decrypt (encrypt s) = s` for every string `s`, and
`decryptAmount (encryptAmount n) = n` (exactly, hence within any rounding
tolerance) for every well-formed finite decimal `n`. -/
theorem encrypt_decrypt_roundtrip (C : Cipher) (k : Str) (iv : List Nat)
    (s : Str) (n : DecNum) (hk : k.length = 64) (hiv : iv.length = 16)
    (hivb : ∀ b ∈ iv, b < 256) (hn : n.WF) :
    (∃ ct, encrypt C (some k) iv s = .ok ct ∧ decrypt C (some k) ct = .ok s) ∧
    (∃ cta, encryptAmount C (some k) iv (.num n) = .ok (.str cta) ∧
      decryptAmount C (some k) (.str cta) = .ok n.val) := by
  refine ⟨decrypt_encrypt_core C k iv s hk hiv hivb, ?_⟩
  obtain ⟨ct, he, hd⟩ := decrypt_encrypt_core C k iv (numToString n) hk hiv hivb
  refine ⟨ct, ?_, ?_⟩
  · show Except.map JsVal.str (encrypt C (some k) iv (numToString n))
        = Except.ok (JsVal.str ct)
    rw [he]
    rfl
  · show Except.map jsParseFloatOrZero (decrypt C (some k) ct) = Except.ok n.val
    rw [hd]
    show Except.ok (jsParseFloatOrZero (numToString n)) = Except.ok n.val
    unfold jsParseFloatOrZero
    rw [jsParseFloat_numToString n hn]

/-- Witness for `encrypt_decrypt_roundtrip` at a concrete key, IV, string
and number. -/
theorem encrypt_decrypt_roundtrip_witness :
    (keyW.length = 64 ∧ ivW.length = 16 ∧ (∀ b ∈ ivW, b < 256) ∧ numW.WF) ∧
      (∃ ct, encrypt trivialCipher (some keyW) ivW ("alice".toList) = .ok ct ∧
        decrypt trivialCipher (some keyW) ct = .ok ("alice".toList)) ∧
      (∃ cta, encryptAmount trivialCipher (some keyW) ivW (.num numW)
          = .ok (.str cta) ∧
        decryptAmount trivialCipher (some keyW) (.str cta) = .ok numW.val) :=
  ⟨⟨by decide, by decide, by decide, by decide⟩,
    encrypt_decrypt_roundtrip trivialCipher keyW ivW ("alice".toList) numW
      (by decide) (by decide) (by decide) (by decide)⟩

/-! ### Claim C3: refresh-token cap -/

/-- C3: `addRefreshToken` prunes expired and revoked entries, evicts the
oldest remaining entry when the active set has five or more entries, then
appends the new record; as a consequence a list of at most five entries
stays at most five, and with exactly five active entries the oldest is
evicted and exactly five remain. -/
theorem addRefreshToken_cap (now : Nat) (tok : Str) (ttl : Nat) (u : UserState)
    (h5 : u.refreshTokens.length ≤ 5) :
    (addRefreshToken now tok ttl u).refreshTokens =
      (let a := u.refreshTokens.filter (isActiveRecord now)
       (if 5 ≤ a.length then a.tail else a) ++
         [{ token := tok, createdAt := now, expiresAt := now + ttl,
            isRevoked := false }]) ∧
    (addRefreshToken now tok ttl u).refreshTokens.length ≤ 5 ∧
    ((u.refreshTokens.filter (isActiveRecord now)).length = 5 →
      (addRefreshToken now tok ttl u).refreshTokens =
        (u.refreshTokens.filter (isActiveRecord now)).tail ++
          [{ token := tok, createdAt := now, expiresAt := now + ttl,
             isRevoked := false }] ∧
      (addRefreshToken now tok ttl u).refreshTokens.length = 5) := by
  have hf : (u.refreshTokens.filter (isActiveRecord now)).length ≤ 5 :=
    le_trans (List.length_filter_le _ _) h5
  refine ⟨rfl, ?_, ?_⟩
  · unfold addRefreshToken
    by_cases hc : 5 ≤ (u.refreshTokens.filter (isActiveRecord now)).length
    · simp only [hc, if_true, List.length_append, List.length_tail]
      simp
      omega
    · simp only [hc, if_false, List.length_append]
      simp
      omega
  · intro hfl
    have hc : 5 ≤ (u.refreshTokens.filter (isActiveRecord now)).length :=
      le_of_eq hfl.symm
    constructor
    · unfold addRefreshToken
      simp only [hc, if_true]
    · unfold addRefreshToken
      simp only [hc, if_true, List.length_append, List.length_tail, hfl]
      simp
      omega

/-- Witness for `addRefreshToken_cap`: a user with five active tokens gets a
sixth, the oldest is evicted, five remain. -/
theorem addRefreshToken_cap_witness :
    (u5W.refreshTokens.length ≤ 5 ∧
      (u5W.refreshTokens.filter (isActiveRecord 10)).length = 5) ∧
    (addRefreshToken 10 ("tok6".toList) 50 u5W).refreshTokens.length ≤ 5 ∧
    (addRefreshToken 10 ("tok6".toList) 50 u5W).refreshTokens =
      u5W.refreshTokens.tail ++
        [{ token := "tok6".toList, createdAt := 10, expiresAt := 60,
           isRevoked := false }] := by
  refine ⟨⟨by decide, by decide⟩,
    (addRefreshToken_cap 10 ("tok6".toList) 50 u5W (by decide)).2.1, ?_⟩
  have h := ((addRefreshToken_cap 10 ("tok6".toList) 50 u5W (by decide)).2.2
    (by decide)).1
  rw [h]
  decide

/-! ### Claim C5: wrong current password -/

/-- C5: when the supplied current password does not match the stored hash,
the change-password operation answers with the 400 response carrying
`Current password is incorrect` (the spec's `AuthError`) and both the stored
password hash and the refresh-token list are unchanged. -/
theorem changePassword_wrong_current (env : AuthEnv) (now : Nat)
    (currentPassword newPassword : Str) (cookie : Option Str) (u : UserState)
    (h : env.compare currentPassword u.password = false) :
    changePasswordOp env now currentPassword newPassword cookie u
        = (.badRequest msgCurrentIncorrect, u) ∧
    (changePasswordOp env now currentPassword newPassword cookie u).2.password
        = u.password ∧
    (changePasswordOp env now currentPassword newPassword cookie u).2.refreshTokens
        = u.refreshTokens := by
  have hmain : changePasswordOp env now currentPassword newPassword cookie u
      = (.badRequest msgCurrentIncorrect, u) := by
    unfold changePasswordOp
    rw [h]
    simp
  exact ⟨hmain, by rw [hmain], by rw [hmain]⟩

/-- Witness for `changePassword_wrong_current` at a concrete user and a
wrong password. -/
theorem changePassword_wrong_current_witness :
    envW.compare ("wrong".toList) uTokW.password = false ∧
      changePasswordOp envW 3 ("wrong".toList) ("npw".toList) none uTokW
        = (.badRequest msgCurrentIncorrect, uTokW) :=
  ⟨by decide,
    (changePassword_wrong_current envW 3 ("wrong".toList) ("npw".toList) none uTokW
      (by decide)).1⟩

/-! ### Claim C8: CSRF guard contract -/

/-- C8: safe methods bypass the CSRF check entirely (the session is not even
touched); for unsafe methods the token is read from the header or the body
field, a missing token answers 403 with the missing-token message, a token
failing verification against the requester's session secret answers 403 with
the invalid-token message, and a verified token passes the request
through. -/
theorem csrfProtection_contract (verifyTok : Str → Str → Bool)
    (freshSecret : Str) (req : CsrfRequest) :
    (isSafeMethod req.method = true →
      csrfProtection verifyTok freshSecret req = (.next, req.sessionSecret)) ∧
    (isSafeMethod req.method = false →
      jsTruthyStr (jsOrStr req.headerToken req.bodyToken) = false →
      csrfProtection verifyTok freshSecret req
        = (.forbidden msgCsrfMissing, some (sessionSecretAfter freshSecret req))) ∧
    (∀ t, isSafeMethod req.method = false →
      jsOrStr req.headerToken req.bodyToken = some t → t.isEmpty = false →
      verifyTok (sessionSecretAfter freshSecret req) t = false →
      csrfProtection verifyTok freshSecret req
        = (.forbidden msgCsrfInvalid, some (sessionSecretAfter freshSecret req))) ∧
    (∀ t, isSafeMethod req.method = false →
      jsOrStr req.headerToken req.bodyToken = some t → t.isEmpty = false →
      verifyTok (sessionSecretAfter freshSecret req) t = true →
      csrfProtection verifyTok freshSecret req
        = (.next, some (sessionSecretAfter freshSecret req))) := by
  refine ⟨?_, ?_, ?_, ?_⟩
  · intro hsafe
    unfold csrfProtection
    rw [hsafe]
    simp
  · intro hmeth htok
    unfold csrfProtection
    rw [hmeth]
    simp [htok]
  · intro t hmeth htok hne hver
    unfold csrfProtection
    rw [hmeth]
    simp [htok, jsTruthyStr, hne, hver]
  · intro t hmeth htok hne hver
    unfold csrfProtection
    rw [hmeth]
    simp [htok, jsTruthyStr, hne, hver]

/-- Witness for `csrfProtection_contract`: all four branches at concrete
requests against a concrete verifier (token valid iff equal to the
secret). -/
theorem csrfProtection_contract_witness :
    csrfProtection (fun sec tok => sec == tok) ("fresh".toList)
        { method := .GET, headerToken := none, bodyToken := none,
          sessionSecret := none } = (.next, none) ∧
    csrfProtection (fun sec tok => sec == tok) ("fresh".toList)
        { method := .POST, headerToken := none, bodyToken := none,
          sessionSecret := some ("sec".toList) }
      = (.forbidden msgCsrfMissing, some ("sec".toList)) ∧
    csrfProtection (fun sec tok => sec == tok) ("fresh".toList)
        { method := .POST, headerToken := some ("bad".toList), bodyToken := none,
          sessionSecret := some ("sec".toList) }
      = (.forbidden msgCsrfInvalid, some ("sec".toList)) ∧
    csrfProtection (fun sec tok => sec == tok) ("fresh".toList)
        { method := .POST, headerToken := some ("sec".toList), bodyToken := none,
          sessionSecret := some ("sec".toList) }
      = (.next, some ("sec".toList)) := by
  refine ⟨(csrfProtection_contract _ _ _).1 (by decide), ?_, ?_, ?_⟩
  · have h := (csrfProtection_contract (fun sec tok => sec == tok) ("fresh".toList)
      { method := .POST, headerToken := none, bodyToken := none,
        sessionSecret := some ("sec".toList) }).2.1 (by decide) (by decide)
    rw [h]
    decide
  · have h := (csrfProtection_contract (fun sec tok => sec == tok) ("fresh".toList)
      { method := .POST, headerToken := some ("bad".toList), bodyToken := none,
        sessionSecret := some ("sec".toList) }).2.2.1 ("bad".toList)
      (by decide) (by decide) (by decide) (by decide)
    rw [h]
    decide
  · have h := (csrfProtection_contract (fun sec tok => sec == tok) ("fresh".toList)
      { method := .POST, headerToken := some ("sec".toList), bodyToken := none,
        sessionSecret := some ("sec".toList) }).2.2.2 ("sec".toList)
      (by decide) (by decide) (by decide) (by decide)
    rw [h]
    decide

/-! ### Claim C9: audit logging never throws -/

/-- C9: `auditLog` and `logEvent` never propagate a failure: whatever the
save oracle does (including always failing), `auditLog` returns normally and
`logEvent` returns normally (with the saved document or nothing). -/
theorem auditLog_never_throws (save : AuditEventData → Except Str AuditDoc)
    (userId : JsActor) (action resource : Str) (opts : AuditOptions)
    (e : AuditEventData) :
    auditLog save userId action resource opts = .ok () ∧
      ∃ r, logEvent save e = .ok r := by
  constructor
  · unfold auditLog logEvent
    cases save (mkAuditData userId action resource opts) <;> rfl
  · unfold logEvent
    cases save e with
    | ok d => exact ⟨some d, rfl⟩
    | error msg => exact ⟨none, rfl⟩

/-! ### Claim C10: anonymous and null actors are silently dropped -/

/-- C10: an audit event whose actor is the `anonymous` string recorded for
unauthenticated requests, or the `null` actor used by the authentication
audit hook, fails the `userId` ObjectId validation of `auditLogSchema`, so
`save` rejects it, `logEvent` swallows the failure, and no document is
persisted — for every action, resource and options. -/
theorem anonymous_audit_event_dropped (action resource : Str)
    (opts : AuditOptions) :
    logEvent mongooseSaveAudit
        (mkAuditData (auditActorOfUser none) action resource opts) = .ok none ∧
    logEvent mongooseSaveAudit
        (mkAuditData (authAuditActorOfUser none) action resource opts)
      = .ok none := by
  constructor
  · have hval : validateAuditEvent
        (mkAuditData (auditActorOfUser none) action resource opts) = false := by
      unfold validateAuditEvent
      have huid : (mkAuditData (auditActorOfUser none) action resource opts).userId
          = JsActor.strVal ("anonymous".toList) := rfl
      have hcast : castsToObjectId (JsActor.strVal ("anonymous".toList)) = false := by
        decide
      rw [huid, hcast]
      rfl
    unfold logEvent mongooseSaveAudit
    rw [hval]
    rfl
  · have hval : validateAuditEvent
        (mkAuditData (authAuditActorOfUser none) action resource opts) = false := by
      unfold validateAuditEvent
      have huid : (mkAuditData (authAuditActorOfUser none) action resource opts).userId
          = JsActor.nullVal := rfl
      have hcast : castsToObjectId JsActor.nullVal = false := rfl
      rw [huid, hcast]
      rfl
    unfold logEvent mongooseSaveAudit
    rw [hval]
    rfl

/-! ### Claim C2: refresh rotation consumes the token -/

theorem mem_filter_revokeFirst_ne (t : Str) (now : Nat)
    (L : List RefreshTokenRecord)
    (hdup : (L.filter (fun r => r.token == t)).length ≤ 1) :
    ∀ r ∈ (revokeFirst t L).filter (isActiveRecord now), r.token ≠ t := by
  induction L with
  | nil =>
    intro r hr
    simp [revokeFirst] at hr
  | cons r0 rs ih =>
    intro r hr
    by_cases h0 : r0.token == t
    · rw [revokeFirst, if_pos h0, List.filter_cons] at hr
      have hrev : isActiveRecord now { r0 with isRevoked := true } = false := by
        simp [isActiveRecord]
      rw [hrev] at hr
      simp only [Bool.false_eq_true, if_false] at hr
      have hrs : rs.filter (fun r => r.token == t) = [] := by
        rw [List.filter_cons, if_pos h0, List.length_cons] at hdup
        exact List.length_eq_zero.mp (by omega)
      intro hrt
      have hmem : r ∈ rs := (List.mem_filter.mp hr).1
      have hcontra : r ∈ rs.filter (fun x => x.token == t) :=
        List.mem_filter.mpr ⟨hmem, by simp [hrt]⟩
      rw [hrs] at hcontra
      exact absurd hcontra (List.not_mem_nil r)
    · rw [revokeFirst, if_neg h0, List.filter_cons] at hr
      have hdup2 : (rs.filter (fun r => r.token == t)).length ≤ 1 := by
        rw [List.filter_cons, if_neg h0] at hdup
        exact hdup
      by_cases ha : isActiveRecord now r0 = true
      · rw [if_pos ha] at hr
        rcases List.mem_cons.mp hr with rfl | hr2
        · intro hrt
          exact h0 (by simp [hrt])
        · exact ih hdup2 r hr2
      · rw [if_neg ha] at hr
        exact ih hdup2 r hr

theorem validate_false_of_no_token (now : Nat) (t : Str) (u : UserState)
    (h : ∀ r ∈ u.refreshTokens, r.token ≠ t) :
    validateRefreshToken now t u = false := by
  unfold validateRefreshToken
  rw [List.any_eq_false]
  intro r hr
  simp [h r hr]

theorem rotation_removes_token (t f : Str) (now ttl : Nat) (u : UserState)
    (hdup : countToken t u ≤ 1) (hfresh : f ≠ t) :
    ∀ r ∈ (addRefreshToken now f ttl (revokeRefreshToken t u)).refreshTokens,
      r.token ≠ t := by
  intro r hr
  simp only [addRefreshToken] at hr
  rw [List.mem_append] at hr
  rcases hr with hr | hr
  · have hr2 : r ∈ ((revokeRefreshToken t u).refreshTokens).filter
        (isActiveRecord now) := by
      revert hr
      by_cases hc : 5 ≤ (((revokeRefreshToken t u).refreshTokens).filter
          (isActiveRecord now)).length
      · rw [if_pos hc]
        intro hr
        exact (List.tail_sublist _).subset hr
      · rw [if_neg hc]
        intro hr
        exact hr
    exact mem_filter_revokeFirst_ne t now u.refreshTokens hdup r hr2
  · rw [List.mem_singleton] at hr
    subst hr
    exact hfresh

/-- C2: a successful refresh rotation (valid JWT with the refresh marker for
the stored user, stored token valid, fresh token distinct from the old one,
at most one stored record for the old token) issues the fresh pair; after it
the old token fails `validateRefreshToken` at every time, and a second
refresh presenting the old token answers 401 with the
invalid-or-expired message. -/
theorem refresh_rotation_single_use (env : AuthEnv) (now now2 : Nat)
    (a f a2 f2 t : Str) (u : UserState)
    (hverify : env.verify t = some { id := env.uid, type := typeRefresh })
    (hval : validateRefreshToken now t u = true)
    (hdup : countToken t u ≤ 1)
    (hfresh : f ≠ t) :
    refreshTokenOp env now a f (some t) u
        = (.tokenPair a f,
            addRefreshToken now f defaultRefreshTtl (revokeRefreshToken t u)) ∧
    (∀ m, validateRefreshToken m t
        (refreshTokenOp env now a f (some t) u).2 = false) ∧
    (refreshTokenOp env now2 a2 f2 (some t)
        (refreshTokenOp env now a f (some t) u).2).1
      = .authError msgInvalidOrExpired := by
  have hstate : refreshTokenOp env now a f (some t) u
      = (.tokenPair a f,
          addRefreshToken now f defaultRefreshTtl (revokeRefreshToken t u)) := by
    simp [refreshTokenOp, hverify, hval]
  have hno : ∀ r ∈ (addRefreshToken now f defaultRefreshTtl
      (revokeRefreshToken t u)).refreshTokens, r.token ≠ t :=
    rotation_removes_token t f now defaultRefreshTtl u hdup hfresh
  refine ⟨hstate, ?_, ?_⟩
  · intro m
    rw [hstate]
    exact validate_false_of_no_token m t _ hno
  · rw [hstate]
    have hv2 : validateRefreshToken now2 t
        (addRefreshToken now f defaultRefreshTtl (revokeRefreshToken t u))
        = false :=
      validate_false_of_no_token now2 t _ hno
    simp [refreshTokenOp, hverify, hv2]

/-- Witness for `refresh_rotation_single_use`: a user with one active stored
token rotates it; the old token then fails validation and a replayed
refresh is rejected. -/
theorem refresh_rotation_single_use_witness :
    (refreshTokenOp envW 0 ("a".toList) ("f".toList) (some ("t".toList)) uTokW).1
        = .tokenPair ("a".toList) ("f".toList) ∧
    validateRefreshToken 5 ("t".toList)
        (refreshTokenOp envW 0 ("a".toList) ("f".toList) (some ("t".toList))
          uTokW).2 = false ∧
    (refreshTokenOp envW 9 ("a2".toList) ("f2".toList) (some ("t".toList))
        (refreshTokenOp envW 0 ("a".toList) ("f".toList) (some ("t".toList))
          uTokW).2).1
      = .authError msgInvalidOrExpired := by
  have H := refresh_rotation_single_use envW 0 9 ("a".toList) ("f".toList)
    ("a2".toList) ("f2".toList) ("t".toList) uTokW (by decide) (by decide)
    (by decide) (by decide)
  exact ⟨by rw [H.1], H.2.1 5, H.2.2⟩

/-! ### Claim C6: findByEmail -/

/-- C6 counterexample: a stored user whose (decrypted) email contains an
upper-case letter matches the argument case-insensitively — here the
decrypted email even equals one argument exactly — yet `findByEmail`
returns no user, because the code compares the decrypted email against the
lowercased argument with strict equality. -/
theorem findByEmail_not_case_insensitive :
    decrypt trivialCipher none uMixedW.emailStored = .ok ("Alice@x.com".toList) ∧
    jsToLower ("Alice@x.com".toList) = jsToLower ("ALICE@X.COM".toList) ∧
    findByEmail trivialCipher none [uMixedW] ("Alice@x.com".toList) = .ok none ∧
    findByEmail trivialCipher none [uMixedW] ("ALICE@X.COM".toList) = .ok none :=
  ⟨rfl, rfl, rfl, rfl⟩

/-- C6 amended: when every stored email decrypts, `findByEmail` returns the
first user whose decrypted email is strictly equal to the lowercased
argument — case-insensitive in the argument, case-sensitive in the stored
email — and `none` when no user satisfies that. -/
theorem findByEmail_matches_lowercased_argument (C : Cipher)
    (envKey : Option Str) (users : List StoredUser) (email : Str)
    (hok : ∀ u ∈ users, ∃ d, decrypt C envKey u.emailStored = .ok d) :
    findByEmail C envKey users email
      = .ok (users.find? (fun u => emailPlain C envKey u == jsToLower email)) := by
  induction users with
  | nil => rfl
  | cons u rest ih =>
    obtain ⟨d, hd⟩ := hok u (List.mem_cons_self u rest)
    have hep : emailPlain C envKey u = d := by
      unfold emailPlain
      rw [hd]
    by_cases he : (d == jsToLower email) = true
    · simp only [findByEmail, hd]
      rw [if_pos he, List.find?_cons_of_pos _ (by rw [hep]; exact he)]
    · simp only [findByEmail, hd]
      rw [if_neg he, ih (fun v hv => hok v (List.mem_cons_of_mem u hv)),
        List.find?_cons_of_neg _ (by rw [hep]; exact he)]

/-- Witness for `findByEmail_matches_lowercased_argument` on a concrete
one-user store and an upper-case argument. -/
theorem findByEmail_matches_lowercased_argument_witness :
    (∀ u ∈ [uMixedW], ∃ d, decrypt trivialCipher none u.emailStored = .ok d) ∧
      findByEmail trivialCipher none [uMixedW] ("ALICE@X.COM".toList)
        = .ok ([uMixedW].find? (fun u => emailPlain trivialCipher none u
            == jsToLower ("ALICE@X.COM".toList))) := by
  have hok : ∀ u ∈ [uMixedW], ∃ d,
      decrypt trivialCipher none u.emailStored = .ok d := by
    intro u hu
    rw [List.mem_singleton] at hu
    subst hu
    exact ⟨_, rfl⟩
  exact ⟨hok, findByEmail_matches_lowercased_argument trivialCipher none
    [uMixedW] ("ALICE@X.COM".toList) hok⟩

/-! ### Claim C4: terminal refresh tokens -/

/-- C4 counterexample: the token `t` is terminal (its only stored record is
revoked), yet a change-password request that presents `t` as its cookie
re-activates it: the controller re-adds the cookie token after revoking
everything, checking only the JWT signature and never the stored state. -/
theorem terminal_token_resurrected :
    validateRefreshToken 0 ("t".toList) uRevokedW = false ∧
    validateRefreshToken 0 ("t".toList)
        (applyOp envW (.changePwd 0 ("pw".toList) ("npw".toList)
          (some ("t".toList))) uRevokedW) = true :=
  ⟨rfl, rfl⟩

theorem timesMono_cons (n : Nat) (op : AuthOp) (rest : List AuthOp) :
    timesMono n (op :: rest) ↔ n ≤ op.time ∧ timesMono op.time rest :=
  Iff.rfl

theorem deadFor_mono (t : Str) (now now2 : Nat) (u : UserState)
    (h : deadFor t now u) (hle : now ≤ now2) : deadFor t now2 u := by
  intro r hr ht
  rcases h r hr ht with hrev | hexp
  · exact Or.inl hrev
  · exact Or.inr (le_trans hexp hle)

theorem deadFor_revokeAll (t : Str) (now : Nat) (u : UserState) :
    deadFor t now (revokeAllRefreshTokens u) := by
  intro r hr ht
  simp only [revokeAllRefreshTokens] at hr
  rw [List.mem_map] at hr
  obtain ⟨r0, _, rfl⟩ := hr
  exact Or.inl rfl

theorem mem_revokeFirst (tok : Str) (L : List RefreshTokenRecord) :
    ∀ r ∈ revokeFirst tok L,
      r ∈ L ∨ ∃ r0, r0 ∈ L ∧ r = { r0 with isRevoked := true } := by
  induction L with
  | nil =>
    intro r hr
    simp [revokeFirst] at hr
  | cons r0 rs ih =>
    intro r hr
    by_cases h0 : r0.token == tok
    · rw [revokeFirst, if_pos h0] at hr
      rcases List.mem_cons.mp hr with rfl | hr2
      · exact Or.inr ⟨r0, List.mem_cons_self _ _, rfl⟩
      · exact Or.inl (List.mem_cons_of_mem _ hr2)
    · rw [revokeFirst, if_neg h0] at hr
      rcases List.mem_cons.mp hr with rfl | hr2
      · exact Or.inl (List.mem_cons_self _ _)
      · rcases ih r hr2 with hm | ⟨r1, hr1, rfl⟩
        · exact Or.inl (List.mem_cons_of_mem _ hm)
        · exact Or.inr ⟨r1, List.mem_cons_of_mem _ hr1, rfl⟩

theorem deadFor_revokeRefreshToken (t tok : Str) (now : Nat) (u : UserState)
    (h : deadFor t now u) : deadFor t now (revokeRefreshToken tok u) := by
  intro r hr ht
  rcases mem_revokeFirst tok u.refreshTokens r hr with hm | ⟨r0, hr0, rfl⟩
  · exact h r hm ht
  · exact Or.inl rfl

theorem mem_addRefreshToken (now : Nat) (tok : Str) (ttl : Nat) (u : UserState) :
    ∀ r ∈ (addRefreshToken now tok ttl u).refreshTokens,
      r ∈ u.refreshTokens ∨
        r = { token := tok, createdAt := now, expiresAt := now + ttl,
              isRevoked := false } := by
  intro r hr
  simp only [addRefreshToken] at hr
  rw [List.mem_append] at hr
  rcases hr with hr | hr
  · left
    have hr2 : r ∈ u.refreshTokens.filter (isActiveRecord now) := by
      revert hr
      by_cases hc : 5 ≤ (u.refreshTokens.filter (isActiveRecord now)).length
      · rw [if_pos hc]
        intro hr
        exact (List.tail_sublist _).subset hr
      · rw [if_neg hc]
        intro hr
        exact hr
    exact (List.mem_filter.mp hr2).1
  · right
    rwa [List.mem_singleton] at hr

theorem deadFor_addRefreshToken (t tok : Str) (now addNow ttl : Nat)
    (u : UserState) (htok : tok ≠ t) (h : deadFor t now u) :
    deadFor t now (addRefreshToken addNow tok ttl u) := by
  intro r hr ht
  rcases mem_addRefreshToken addNow tok ttl u r hr with hm | rfl
  · exact h r hm ht
  · exact absurd ht htok

theorem deadFor_applyOp (env : AuthEnv) (t : Str) (now : Nat) (op : AuthOp)
    (u : UserState) (h : deadFor t now u) (havoid : opAvoids t op)
    (hle : now ≤ op.time) : deadFor t op.time (applyOp env op u) := by
  have h2 : deadFor t op.time u := deadFor_mono t now op.time u h hle
  cases op with
  | refresh n a f cookie =>
    have hf : f ≠ t := havoid
    cases cookie with
    | none => exact h2
    | some c =>
      cases hv : env.verify c with
      | none =>
        simp only [applyOp, refreshTokenOp, hv]
        exact h2
      | some p =>
        simp only [applyOp, refreshTokenOp, hv]
        by_cases h1 : p.type ≠ typeRefresh
        · rw [if_pos h1]
          exact h2
        · rw [if_neg h1]
          by_cases hq : p.id ≠ env.uid
          · rw [if_pos hq]
            exact h2
          · rw [if_neg hq]
            by_cases h3 : validateRefreshToken n c u = false
            · rw [if_pos h3]
              exact h2
            · rw [if_neg h3]
              exact deadFor_addRefreshToken t f n n defaultRefreshTtl _ hf
                (deadFor_revokeRefreshToken t c n u h2)
  | changePwd n c npw cookie =>
    have hck : cookie ≠ some t := havoid
    cases cookie with
    | none =>
      simp only [applyOp, changePasswordOp]
      by_cases h1 : env.compare c u.password = false
      · rw [if_pos h1]
        exact h2
      · rw [if_neg h1]
        by_cases hq : env.compare npw u.password = true
        · rw [if_pos hq]
          exact h2
        · rw [if_neg hq]
          exact deadFor_revokeAll t n _
    | some ck =>
      have hckt : ck ≠ t := by
        intro hEq
        exact hck (by rw [hEq])
      simp only [applyOp, changePasswordOp]
      by_cases h1 : env.compare c u.password = false
      · rw [if_pos h1]
        exact h2
      · rw [if_neg h1]
        by_cases hq : env.compare npw u.password = true
        · rw [if_pos hq]
          exact h2
        · rw [if_neg hq]
          by_cases hv : (env.verify ck).isSome = true
          · rw [if_pos hv]
            exact deadFor_addRefreshToken t ck n n defaultRefreshTtl _ hckt
              (deadFor_revokeAll t n _)
          · rw [if_neg hv]
            exact deadFor_revokeAll t n _
  | login n pw a f =>
    have hf : f ≠ t := havoid
    simp only [applyOp, loginOp]
    by_cases h1 : env.compare pw u.password = true
    · rw [if_pos h1]
      exact deadFor_addRefreshToken t f n n defaultRefreshTtl u hf h2
    · rw [if_neg h1]
      exact h2
  | logout n cookie =>
    cases cookie with
    | some c => exact deadFor_revokeRefreshToken t c _ u h2
    | none => exact deadFor_revokeAll t _ u
  | addTok n tok ttl =>
    have hf : tok ≠ t := havoid
    exact deadFor_addRefreshToken t tok n n ttl u hf h2

theorem deadFor_applyOps (env : AuthEnv) (t : Str) (now0 : Nat)
    (ops : List AuthOp) (u : UserState) (h : deadFor t now0 u)
    (hmono : timesMono now0 ops) (havoid : ∀ op ∈ ops, opAvoids t op) :
    deadFor t (lastTime now0 ops) (applyOps env ops u) := by
  induction ops generalizing now0 u with
  | nil => exact h
  | cons op rest ih =>
    obtain ⟨hm1, hm2⟩ := (timesMono_cons now0 op rest).mp hmono
    have h1 : deadFor t op.time (applyOp env op u) :=
      deadFor_applyOp env t now0 op u h (havoid op (List.mem_cons_self _ _)) hm1
    exact ih op.time (applyOp env op u) h1 hm2
      (fun o ho => havoid o (List.mem_cons_of_mem _ ho))

theorem validate_false_of_deadFor (t : Str) (now : Nat) (u : UserState)
    (h : deadFor t now u) : validateRefreshToken now t u = false := by
  unfold validateRefreshToken
  rw [List.any_eq_false]
  intro r hr
  by_cases ht : r.token = t
  · rcases h r hr ht with hrev | hexp
    · simp [isActiveRecord, hrev]
    · simp [isActiveRecord, show ¬(now < r.expiresAt) from by omega]
  · simp [ht]

/-- C4 amended: once a token value is terminal (every stored record for it
revoked or expired), it stays invalid under every sequence of refresh,
password-change, login, logout and addRefreshToken operations with
nondecreasing clocks, provided no operation re-introduces that very token
value — i.e. the freshly issued tokens differ from it, it is not handed to
`addRefreshToken`, and no change-password request presents it as its cookie.
The counterexample `terminal_token_resurrected` shows the unamended claim
fails exactly on those excluded re-introductions. -/
theorem terminal_token_absorbing (env : AuthEnv) (t : Str) (now0 now2 : Nat)
    (ops : List AuthOp) (u : UserState)
    (hdead : deadFor t now0 u)
    (hmono : timesMono now0 ops)
    (havoid : ∀ op ∈ ops, opAvoids t op)
    (hle : lastTime now0 ops ≤ now2) :
    validateRefreshToken now2 t (applyOps env ops u) = false :=
  validate_false_of_deadFor t now2 _
    (deadFor_mono t _ now2 _
      (deadFor_applyOps env t now0 ops u hdead hmono havoid) hle)

/-- Witness for `terminal_token_absorbing`: a revoked token stays invalid
across an addRefreshToken of a different value, a logout-all, and a replayed
refresh attempt with the terminal token as cookie. -/
theorem terminal_token_absorbing_witness :
    (deadFor ("t".toList) 0 uRevokedW ∧
      timesMono 0 [AuthOp.addTok 5 ("s".toList) 10, AuthOp.logout 6 none,
        AuthOp.refresh 7 ("a".toList) ("f".toList) (some ("t".toList))] ∧
      (∀ op ∈ [AuthOp.addTok 5 ("s".toList) 10, AuthOp.logout 6 none,
        AuthOp.refresh 7 ("a".toList) ("f".toList) (some ("t".toList))],
        opAvoids ("t".toList) op)) ∧
    validateRefreshToken 20 ("t".toList)
        (applyOps envW [AuthOp.addTok 5 ("s".toList) 10, AuthOp.logout 6 none,
          AuthOp.refresh 7 ("a".toList) ("f".toList) (some ("t".toList))]
          uRevokedW) = false :=
  ⟨⟨by decide, by decide, by decide⟩,
    terminal_token_absorbing envW ("t".toList) 0 20
      [AuthOp.addTok 5 ("s".toList) 10, AuthOp.logout 6 none,
        AuthOp.refresh 7 ("a".toList) ("f".toList) (some ("t".toList))]
      uRevokedW (by decide) (by decide) (by decide) (by decide)⟩

end Perfind
